import Mathlib

/-!
Verification model of the `arpabet` crates (phoneme types, symbol table,
dictionary store and CMUdict-format parser), shallowly embedded from the
Rust sources:

* `arpabet_types/src/phoneme.rs`  — `Consonant`, `VowelStress`, `Vowel`,
  `Phoneme` and their string conversions, and `Phoneme::try_from`.
* `arpabet_types/src/constants.rs` — `ALL_CONSONANTS`, `ALL_VOWELS`,
  `PHONEME_MAP` (the static phf symbol table, modelled as an association
  list with first-match lookup; phf guarantees distinct keys, and lookup
  is exact string equality, so the models agree).
* `arpabet_types/src/lib.rs` — the `Arpabet` store over a `HashMap`,
  modelled as an association list with distinct keys; mutating methods
  return the post-state.
* `arpabet_parser/src/lib.rs` — `load_from_str` / `read_lines`, with the
  `BufRead::read_line` segmentation (lines keep their trailing newline)
  and executable models of the two anchored regexes
  `^([\w\-\(\)\.']+)\s+([^\s].*)\s*$` and `^;;;\s+` specialised to their
  first-success (greedy, backtracking) match semantics.

Character classes (`\w`, `\s`) and case mappings are modelled at ASCII
fidelity, which covers every string the claims mention.
-/

set_option autoImplicit false

namespace Arpa

/-- Consonants in ARPABET (`phoneme.rs`, enum `Consonant`, 31 variants). -/
inductive Consonant where
  | B | CH | D | DH | DX | EL | EM | EN | F | G | HH | JH | K | L | M | N
  | NG | NX | P | Q | R | S | SH | T | TH | V | W | WH | Y | Z | ZH
deriving DecidableEq

/-- Model of `Consonant::to_str` (`phoneme.rs`). -/
def Consonant.to_str : Consonant → String
  | .B => "B"
  | .CH => "CH"
  | .D => "D"
  | .DH => "DH"
  | .DX => "DX"
  | .EL => "EL"
  | .EM => "EM"
  | .EN => "EN"
  | .F => "F"
  | .G => "G"
  | .HH => "HH"
  | .JH => "JH"
  | .K => "K"
  | .L => "L"
  | .M => "M"
  | .N => "N"
  | .NG => "NG"
  | .NX => "NX"
  | .P => "P"
  | .Q => "Q"
  | .R => "R"
  | .S => "S"
  | .SH => "SH"
  | .T => "T"
  | .TH => "TH"
  | .V => "V"
  | .W => "W"
  | .WH => "WH"
  | .Y => "Y"
  | .Z => "Z"
  | .ZH => "ZH"

/-- Stress values for a vowel (`phoneme.rs`, enum `VowelStress`). -/
inductive VowelStress where
  | UnknownStress | NoStress | PrimaryStress | SecondaryStress
deriving DecidableEq

/-- Model of `VowelStress::to_i` (`phoneme.rs`). -/
def VowelStress.to_i : VowelStress → Int
  | .UnknownStress => -1
  | .NoStress => 0
  | .PrimaryStress => 1
  | .SecondaryStress => 2

/-- Vowels in ARPABET (`phoneme.rs`, enum `Vowel`; 19 bases, each carrying
a stress value). -/
inductive Vowel where
  | AA (stress : VowelStress)
  | AE (stress : VowelStress)
  | AH (stress : VowelStress)
  | AO (stress : VowelStress)
  | AW (stress : VowelStress)
  | AX (stress : VowelStress)
  | AXR (stress : VowelStress)
  | AY (stress : VowelStress)
  | EH (stress : VowelStress)
  | ER (stress : VowelStress)
  | EY (stress : VowelStress)
  | IH (stress : VowelStress)
  | IX (stress : VowelStress)
  | IY (stress : VowelStress)
  | OW (stress : VowelStress)
  | OY (stress : VowelStress)
  | UH (stress : VowelStress)
  | UW (stress : VowelStress)
  | UX (stress : VowelStress)
deriving DecidableEq

/-- Model of `Vowel::get_stress` (`phoneme.rs`). -/
def Vowel.get_stress : Vowel → VowelStress
  | .AA stress => stress
  | .AE stress => stress
  | .AH stress => stress
  | .AO stress => stress
  | .AW stress => stress
  | .AX stress => stress
  | .AXR stress => stress
  | .AY stress => stress
  | .EH stress => stress
  | .ER stress => stress
  | .EY stress => stress
  | .IH stress => stress
  | .IX stress => stress
  | .IY stress => stress
  | .OW stress => stress
  | .OY stress => stress
  | .UH stress => stress
  | .UW stress => stress
  | .UX stress => stress

/-- Model of `Vowel::to_str_stressless` (`phoneme.rs`). -/
def Vowel.to_str_stressless : Vowel → String
  | .AA _ => "AA"
  | .AE _ => "AE"
  | .AH _ => "AH"
  | .AO _ => "AO"
  | .AW _ => "AW"
  | .AX _ => "AX"
  | .AXR _ => "AXR"
  | .AY _ => "AY"
  | .EH _ => "EH"
  | .ER _ => "ER"
  | .EY _ => "EY"
  | .IH _ => "IH"
  | .IX _ => "IX"
  | .IY _ => "IY"
  | .OW _ => "OW"
  | .OY _ => "OY"
  | .UH _ => "UH"
  | .UW _ => "UW"
  | .UX _ => "UX"

/-- Model of `Vowel::to_str` (`phoneme.rs`): the 76-arm nested match,
transcribed arm by arm. -/
def Vowel.to_str (v : Vowel) : String :=
  match v with
  | .AA stress =>
    match stress with
    | .UnknownStress => "AA"
    | .NoStress => "AA0"
    | .PrimaryStress => "AA1"
    | .SecondaryStress => "AA2"
  | .AE stress =>
    match stress with
    | .UnknownStress => "AE"
    | .NoStress => "AE0"
    | .PrimaryStress => "AE1"
    | .SecondaryStress => "AE2"
  | .AH stress =>
    match stress with
    | .UnknownStress => "AH"
    | .NoStress => "AH0"
    | .PrimaryStress => "AH1"
    | .SecondaryStress => "AH2"
  | .AO stress =>
    match stress with
    | .UnknownStress => "AO"
    | .NoStress => "AO0"
    | .PrimaryStress => "AO1"
    | .SecondaryStress => "AO2"
  | .AW stress =>
    match stress with
    | .UnknownStress => "AW"
    | .NoStress => "AW0"
    | .PrimaryStress => "AW1"
    | .SecondaryStress => "AW2"
  | .AX stress =>
    match stress with
    | .UnknownStress => "AX"
    | .NoStress => "AX0"
    | .PrimaryStress => "AX1"
    | .SecondaryStress => "AX2"
  | .AXR stress =>
    match stress with
    | .UnknownStress => "AXR"
    | .NoStress => "AXR0"
    | .PrimaryStress => "AXR1"
    | .SecondaryStress => "AXR2"
  | .AY stress =>
    match stress with
    | .UnknownStress => "AY"
    | .NoStress => "AY0"
    | .PrimaryStress => "AY1"
    | .SecondaryStress => "AY2"
  | .EH stress =>
    match stress with
    | .UnknownStress => "EH"
    | .NoStress => "EH0"
    | .PrimaryStress => "EH1"
    | .SecondaryStress => "EH2"
  | .ER stress =>
    match stress with
    | .UnknownStress => "ER"
    | .NoStress => "ER0"
    | .PrimaryStress => "ER1"
    | .SecondaryStress => "ER2"
  | .EY stress =>
    match stress with
    | .UnknownStress => "EY"
    | .NoStress => "EY0"
    | .PrimaryStress => "EY1"
    | .SecondaryStress => "EY2"
  | .IH stress =>
    match stress with
    | .UnknownStress => "IH"
    | .NoStress => "IH0"
    | .PrimaryStress => "IH1"
    | .SecondaryStress => "IH2"
  | .IX stress =>
    match stress with
    | .UnknownStress => "IX"
    | .NoStress => "IX0"
    | .PrimaryStress => "IX1"
    | .SecondaryStress => "IX2"
  | .IY stress =>
    match stress with
    | .UnknownStress => "IY"
    | .NoStress => "IY0"
    | .PrimaryStress => "IY1"
    | .SecondaryStress => "IY2"
  | .OW stress =>
    match stress with
    | .UnknownStress => "OW"
    | .NoStress => "OW0"
    | .PrimaryStress => "OW1"
    | .SecondaryStress => "OW2"
  | .OY stress =>
    match stress with
    | .UnknownStress => "OY"
    | .NoStress => "OY0"
    | .PrimaryStress => "OY1"
    | .SecondaryStress => "OY2"
  | .UH stress =>
    match stress with
    | .UnknownStress => "UH"
    | .NoStress => "UH0"
    | .PrimaryStress => "UH1"
    | .SecondaryStress => "UH2"
  | .UW stress =>
    match stress with
    | .UnknownStress => "UW"
    | .NoStress => "UW0"
    | .PrimaryStress => "UW1"
    | .SecondaryStress => "UW2"
  | .UX stress =>
    match stress with
    | .UnknownStress => "UX"
    | .NoStress => "UX0"
    | .PrimaryStress => "UX1"
    | .SecondaryStress => "UX2"

/-- Phonemes in ARPABET (`phoneme.rs`, enum `Phoneme`). -/
inductive Phoneme where
  | Consonant (consonant : Consonant)
  | Vowel (vowel : Vowel)
deriving DecidableEq

/-- Model of `Phoneme::to_str` (`phoneme.rs`). -/
def Phoneme.to_str : Phoneme → String
  | .Consonant consonant => consonant.to_str
  | .Vowel vowel => vowel.to_str

/-- Errors of the crates (`src/error.rs`, extended with the
`StringParseError` variant used by `Phoneme::try_from` in `phoneme.rs`).
The payload of the `Io` variant is abstracted to a string description. -/
inductive ArpabetError where
  | EmptyFile
  | InvalidFormat (line_number : Nat) (text : String)
  | Io (description : String)
  | StringParseError (description : String)
deriving DecidableEq

/-- Model of the array `ALL_CONSONANTS` (`constants.rs`). -/
def ALL_CONSONANTS : List Consonant :=
  [ Consonant.B, Consonant.CH, Consonant.D, Consonant.DH, Consonant.DX, Consonant.EL, Consonant.EM, Consonant.EN, Consonant.F, Consonant.G, Consonant.HH, Consonant.JH, Consonant.K, Consonant.L, Consonant.M, Consonant.N,
    Consonant.NG, Consonant.NX, Consonant.P, Consonant.Q, Consonant.R, Consonant.S, Consonant.SH, Consonant.T, Consonant.TH, Consonant.V, Consonant.W, Consonant.WH, Consonant.Y, Consonant.Z, Consonant.ZH ]

/-- Model of the array `ALL_VOWELS` (`constants.rs`): every base vowel with
every stress, base-major, stress in source order. -/
def ALL_VOWELS : List Vowel :=
  [ Vowel.AA VowelStress.UnknownStress, Vowel.AA VowelStress.NoStress, Vowel.AA VowelStress.PrimaryStress, Vowel.AA VowelStress.SecondaryStress,
    Vowel.AE VowelStress.UnknownStress, Vowel.AE VowelStress.NoStress, Vowel.AE VowelStress.PrimaryStress, Vowel.AE VowelStress.SecondaryStress,
    Vowel.AH VowelStress.UnknownStress, Vowel.AH VowelStress.NoStress, Vowel.AH VowelStress.PrimaryStress, Vowel.AH VowelStress.SecondaryStress,
    Vowel.AO VowelStress.UnknownStress, Vowel.AO VowelStress.NoStress, Vowel.AO VowelStress.PrimaryStress, Vowel.AO VowelStress.SecondaryStress,
    Vowel.AW VowelStress.UnknownStress, Vowel.AW VowelStress.NoStress, Vowel.AW VowelStress.PrimaryStress, Vowel.AW VowelStress.SecondaryStress,
    Vowel.AX VowelStress.UnknownStress, Vowel.AX VowelStress.NoStress, Vowel.AX VowelStress.PrimaryStress, Vowel.AX VowelStress.SecondaryStress,
    Vowel.AXR VowelStress.UnknownStress, Vowel.AXR VowelStress.NoStress, Vowel.AXR VowelStress.PrimaryStress, Vowel.AXR VowelStress.SecondaryStress,
    Vowel.AY VowelStress.UnknownStress, Vowel.AY VowelStress.NoStress, Vowel.AY VowelStress.PrimaryStress, Vowel.AY VowelStress.SecondaryStress,
    Vowel.EH VowelStress.UnknownStress, Vowel.EH VowelStress.NoStress, Vowel.EH VowelStress.PrimaryStress, Vowel.EH VowelStress.SecondaryStress,
    Vowel.ER VowelStress.UnknownStress, Vowel.ER VowelStress.NoStress, Vowel.ER VowelStress.PrimaryStress, Vowel.ER VowelStress.SecondaryStress,
    Vowel.EY VowelStress.UnknownStress, Vowel.EY VowelStress.NoStress, Vowel.EY VowelStress.PrimaryStress, Vowel.EY VowelStress.SecondaryStress,
    Vowel.IH VowelStress.UnknownStress, Vowel.IH VowelStress.NoStress, Vowel.IH VowelStress.PrimaryStress, Vowel.IH VowelStress.SecondaryStress,
    Vowel.IX VowelStress.UnknownStress, Vowel.IX VowelStress.NoStress, Vowel.IX VowelStress.PrimaryStress, Vowel.IX VowelStress.SecondaryStress,
    Vowel.IY VowelStress.UnknownStress, Vowel.IY VowelStress.NoStress, Vowel.IY VowelStress.PrimaryStress, Vowel.IY VowelStress.SecondaryStress,
    Vowel.OW VowelStress.UnknownStress, Vowel.OW VowelStress.NoStress, Vowel.OW VowelStress.PrimaryStress, Vowel.OW VowelStress.SecondaryStress,
    Vowel.OY VowelStress.UnknownStress, Vowel.OY VowelStress.NoStress, Vowel.OY VowelStress.PrimaryStress, Vowel.OY VowelStress.SecondaryStress,
    Vowel.UH VowelStress.UnknownStress, Vowel.UH VowelStress.NoStress, Vowel.UH VowelStress.PrimaryStress, Vowel.UH VowelStress.SecondaryStress,
    Vowel.UW VowelStress.UnknownStress, Vowel.UW VowelStress.NoStress, Vowel.UW VowelStress.PrimaryStress, Vowel.UW VowelStress.SecondaryStress,
    Vowel.UX VowelStress.UnknownStress, Vowel.UX VowelStress.NoStress, Vowel.UX VowelStress.PrimaryStress, Vowel.UX VowelStress.SecondaryStress ]

/-- Exact-key lookup in an association list, first match wins.  This models
both `phf::Map::get` (keys are distinct, exact string equality) and
`HashMap::get`. -/
def mapGet {β : Type} : List (String × β) → String → Option β
  | [], _ => none
  | kv :: rest, k => if kv.1 = k then some kv.2 else mapGet rest k

/-- Model of the static symbol table `PHONEME_MAP` (`constants.rs`),
transcribed entry by entry in source order. -/
def PHONEME_MAP : List (String × Phoneme) :=
  [ ("B", Phoneme.Consonant Consonant.B),
    ("CH", Phoneme.Consonant Consonant.CH),
    ("D", Phoneme.Consonant Consonant.D),
    ("DH", Phoneme.Consonant Consonant.DH),
    ("DX", Phoneme.Consonant Consonant.DX),
    ("EL", Phoneme.Consonant Consonant.EL),
    ("EM", Phoneme.Consonant Consonant.EM),
    ("EN", Phoneme.Consonant Consonant.EN),
    ("F", Phoneme.Consonant Consonant.F),
    ("G", Phoneme.Consonant Consonant.G),
    ("HH", Phoneme.Consonant Consonant.HH),
    ("JH", Phoneme.Consonant Consonant.JH),
    ("K", Phoneme.Consonant Consonant.K),
    ("L", Phoneme.Consonant Consonant.L),
    ("M", Phoneme.Consonant Consonant.M),
    ("N", Phoneme.Consonant Consonant.N),
    ("NG", Phoneme.Consonant Consonant.NG),
    ("NX", Phoneme.Consonant Consonant.NX),
    ("P", Phoneme.Consonant Consonant.P),
    ("Q", Phoneme.Consonant Consonant.Q),
    ("R", Phoneme.Consonant Consonant.R),
    ("S", Phoneme.Consonant Consonant.S),
    ("SH", Phoneme.Consonant Consonant.SH),
    ("T", Phoneme.Consonant Consonant.T),
    ("TH", Phoneme.Consonant Consonant.TH),
    ("V", Phoneme.Consonant Consonant.V),
    ("W", Phoneme.Consonant Consonant.W),
    ("WH", Phoneme.Consonant Consonant.WH),
    ("Y", Phoneme.Consonant Consonant.Y),
    ("Z", Phoneme.Consonant Consonant.Z),
    ("ZH", Phoneme.Consonant Consonant.ZH),
    ("AA", Phoneme.Vowel (Vowel.AA VowelStress.UnknownStress)),
    ("AA0", Phoneme.Vowel (Vowel.AA VowelStress.NoStress)),
    ("AA1", Phoneme.Vowel (Vowel.AA VowelStress.PrimaryStress)),
    ("AA2", Phoneme.Vowel (Vowel.AA VowelStress.SecondaryStress)),
    ("AE", Phoneme.Vowel (Vowel.AE VowelStress.UnknownStress)),
    ("AE0", Phoneme.Vowel (Vowel.AE VowelStress.NoStress)),
    ("AE1", Phoneme.Vowel (Vowel.AE VowelStress.PrimaryStress)),
    ("AE2", Phoneme.Vowel (Vowel.AE VowelStress.SecondaryStress)),
    ("AH", Phoneme.Vowel (Vowel.AH VowelStress.UnknownStress)),
    ("AH0", Phoneme.Vowel (Vowel.AH VowelStress.NoStress)),
    ("AH1", Phoneme.Vowel (Vowel.AH VowelStress.PrimaryStress)),
    ("AH2", Phoneme.Vowel (Vowel.AH VowelStress.SecondaryStress)),
    ("AO", Phoneme.Vowel (Vowel.AO VowelStress.UnknownStress)),
    ("AO0", Phoneme.Vowel (Vowel.AO VowelStress.NoStress)),
    ("AO1", Phoneme.Vowel (Vowel.AO VowelStress.PrimaryStress)),
    ("AO2", Phoneme.Vowel (Vowel.AO VowelStress.SecondaryStress)),
    ("AW", Phoneme.Vowel (Vowel.AW VowelStress.UnknownStress)),
    ("AW0", Phoneme.Vowel (Vowel.AW VowelStress.NoStress)),
    ("AW1", Phoneme.Vowel (Vowel.AW VowelStress.PrimaryStress)),
    ("AW2", Phoneme.Vowel (Vowel.AW VowelStress.SecondaryStress)),
    ("AX", Phoneme.Vowel (Vowel.AX VowelStress.UnknownStress)),
    ("AX0", Phoneme.Vowel (Vowel.AX VowelStress.NoStress)),
    ("AX1", Phoneme.Vowel (Vowel.AX VowelStress.PrimaryStress)),
    ("AX2", Phoneme.Vowel (Vowel.AX VowelStress.SecondaryStress)),
    ("AXR", Phoneme.Vowel (Vowel.AXR VowelStress.UnknownStress)),
    ("AXR0", Phoneme.Vowel (Vowel.AXR VowelStress.NoStress)),
    ("AXR1", Phoneme.Vowel (Vowel.AXR VowelStress.PrimaryStress)),
    ("AXR2", Phoneme.Vowel (Vowel.AXR VowelStress.SecondaryStress)),
    ("AY", Phoneme.Vowel (Vowel.AY VowelStress.UnknownStress)),
    ("AY0", Phoneme.Vowel (Vowel.AY VowelStress.NoStress)),
    ("AY1", Phoneme.Vowel (Vowel.AY VowelStress.PrimaryStress)),
    ("AY2", Phoneme.Vowel (Vowel.AY VowelStress.SecondaryStress)),
    ("EH", Phoneme.Vowel (Vowel.EH VowelStress.UnknownStress)),
    ("EH0", Phoneme.Vowel (Vowel.EH VowelStress.NoStress)),
    ("EH1", Phoneme.Vowel (Vowel.EH VowelStress.PrimaryStress)),
    ("EH2", Phoneme.Vowel (Vowel.EH VowelStress.SecondaryStress)),
    ("ER", Phoneme.Vowel (Vowel.ER VowelStress.UnknownStress)),
    ("ER0", Phoneme.Vowel (Vowel.ER VowelStress.NoStress)),
    ("ER1", Phoneme.Vowel (Vowel.ER VowelStress.PrimaryStress)),
    ("ER2", Phoneme.Vowel (Vowel.ER VowelStress.SecondaryStress)),
    ("EY", Phoneme.Vowel (Vowel.EY VowelStress.UnknownStress)),
    ("EY0", Phoneme.Vowel (Vowel.EY VowelStress.NoStress)),
    ("EY1", Phoneme.Vowel (Vowel.EY VowelStress.PrimaryStress)),
    ("EY2", Phoneme.Vowel (Vowel.EY VowelStress.SecondaryStress)),
    ("IH", Phoneme.Vowel (Vowel.IH VowelStress.UnknownStress)),
    ("IH0", Phoneme.Vowel (Vowel.IH VowelStress.NoStress)),
    ("IH1", Phoneme.Vowel (Vowel.IH VowelStress.PrimaryStress)),
    ("IH2", Phoneme.Vowel (Vowel.IH VowelStress.SecondaryStress)),
    ("IX", Phoneme.Vowel (Vowel.IX VowelStress.UnknownStress)),
    ("IX0", Phoneme.Vowel (Vowel.IX VowelStress.NoStress)),
    ("IX1", Phoneme.Vowel (Vowel.IX VowelStress.PrimaryStress)),
    ("IX2", Phoneme.Vowel (Vowel.IX VowelStress.SecondaryStress)),
    ("IY", Phoneme.Vowel (Vowel.IY VowelStress.UnknownStress)),
    ("IY0", Phoneme.Vowel (Vowel.IY VowelStress.NoStress)),
    ("IY1", Phoneme.Vowel (Vowel.IY VowelStress.PrimaryStress)),
    ("IY2", Phoneme.Vowel (Vowel.IY VowelStress.SecondaryStress)),
    ("OW", Phoneme.Vowel (Vowel.OW VowelStress.UnknownStress)),
    ("OW0", Phoneme.Vowel (Vowel.OW VowelStress.NoStress)),
    ("OW1", Phoneme.Vowel (Vowel.OW VowelStress.PrimaryStress)),
    ("OW2", Phoneme.Vowel (Vowel.OW VowelStress.SecondaryStress)),
    ("OY", Phoneme.Vowel (Vowel.OY VowelStress.UnknownStress)),
    ("OY0", Phoneme.Vowel (Vowel.OY VowelStress.NoStress)),
    ("OY1", Phoneme.Vowel (Vowel.OY VowelStress.PrimaryStress)),
    ("OY2", Phoneme.Vowel (Vowel.OY VowelStress.SecondaryStress)),
    ("UH", Phoneme.Vowel (Vowel.UH VowelStress.UnknownStress)),
    ("UH0", Phoneme.Vowel (Vowel.UH VowelStress.NoStress)),
    ("UH1", Phoneme.Vowel (Vowel.UH VowelStress.PrimaryStress)),
    ("UH2", Phoneme.Vowel (Vowel.UH VowelStress.SecondaryStress)),
    ("UW", Phoneme.Vowel (Vowel.UW VowelStress.UnknownStress)),
    ("UW0", Phoneme.Vowel (Vowel.UW VowelStress.NoStress)),
    ("UW1", Phoneme.Vowel (Vowel.UW VowelStress.PrimaryStress)),
    ("UW2", Phoneme.Vowel (Vowel.UW VowelStress.SecondaryStress)),
    ("UX", Phoneme.Vowel (Vowel.UX VowelStress.UnknownStress)),
    ("UX0", Phoneme.Vowel (Vowel.UX VowelStress.NoStress)),
    ("UX1", Phoneme.Vowel (Vowel.UX VowelStress.PrimaryStress)),
    ("UX2", Phoneme.Vowel (Vowel.UX VowelStress.SecondaryStress)) ]

/-- Model of `impl TryFrom<&str> for Phoneme` (`phoneme.rs`): look the token
up in `PHONEME_MAP`, or fail with `StringParseError`. -/
def Phoneme.try_from (maybe_phoneme : String) : Except ArpabetError Phoneme :=
  match mapGet PHONEME_MAP maybe_phoneme with
  | some p => .ok p
  | none => .error (.StringParseError ("Not a phoneme: " ++ maybe_phoneme))

/-- Stress suffix as described by the spec (empty for unknown stress,
otherwise the digit). Spec-side definition used only to state the
refinement claim about `Vowel::to_str`. -/
def stressSuffix : VowelStress → String
  | .UnknownStress => ""
  | .NoStress => "0"
  | .PrimaryStress => "1"
  | .SecondaryStress => "2"

/-- Spec-side compositional form of `Vowel::to_str`: stressless base token
followed by the stress suffix. -/
def Vowel.to_str_spec (v : Vowel) : String :=
  v.to_str_stressless ++ stressSuffix v.get_stress

/-- Word key type (`arpabet_types/src/lib.rs`). -/
abbrev Word := String

/-- Polyphone: an ordered phoneme sequence (`arpabet_types/src/lib.rs`). -/
abbrev Polyphone := List Phoneme

/-- Model of `HashMap::insert` on the association-list abstraction: replace
the value of an existing key in place (the stored key itself is kept, as in
`HashMap`), or append a new binding. -/
def mapInsert {β : Type} (k : String) (v : β) : List (String × β) → List (String × β)
  | [] => [(k, v)]
  | kv :: rest => if kv.1 = k then (kv.1, v) :: rest else kv :: mapInsert k v rest

/-- Model of `HashMap::remove` on the association-list abstraction: drop
the binding of the key, if present. -/
def mapErase {β : Type} (k : String) : List (String × β) → List (String × β)
  | [] => []
  | kv :: rest => if kv.1 = k then rest else kv :: mapErase k rest

/-- The dictionary store (`arpabet_types/src/lib.rs`, struct `Arpabet`).
The backing `HashMap<Word, Polyphone>` is modelled as an association list
whose key order carries no meaning; real stores have distinct keys. -/
structure Arpabet where
  dictionary : List (Word × Polyphone)
deriving DecidableEq

/-- Model of `Arpabet::new`. -/
def Arpabet.new : Arpabet := ⟨[]⟩

/-- Model of `Arpabet::from_map`. -/
def Arpabet.from_map (map : List (Word × Polyphone)) : Arpabet := ⟨map⟩

/-- Model of `Arpabet::get_polyphone` (lookup; the returned copy is the
stored sequence). -/
def Arpabet.get_polyphone (a : Arpabet) (word : String) : Option Polyphone :=
  mapGet a.dictionary word

/-- Model of `Arpabet::get_polyphone_str`: each phoneme rendered through
`Phoneme::to_str`. -/
def Arpabet.get_polyphone_str (a : Arpabet) (word : String) : Option (List String) :=
  (mapGet a.dictionary word).map (fun polyphone => polyphone.map Phoneme.to_str)

/-- Model of `Arpabet::combine`: clone `self`'s map and insert every entry
of `other` (later operand wins on collision); both inputs untouched. -/
def Arpabet.combine (a other : Arpabet) : Arpabet :=
  ⟨other.dictionary.foldl (fun merged kv => mapInsert kv.1 kv.2 merged) a.dictionary⟩

/-- Model of `Arpabet::merge_from`: insert every entry of `other` into
`self`; the result is the post-state of `self`. -/
def Arpabet.merge_from (a other : Arpabet) : Arpabet :=
  ⟨other.dictionary.foldl (fun merged kv => mapInsert kv.1 kv.2 merged) a.dictionary⟩

/-- Model of `Arpabet::insert`: returns the previous value and the
post-state. -/
def Arpabet.insert (a : Arpabet) (key : Word) (value : Polyphone) :
    Option Polyphone × Arpabet :=
  (mapGet a.dictionary key, ⟨mapInsert key value a.dictionary⟩)

/-- Model of `Arpabet::remove`: returns the removed value (if any) and the
post-state. -/
def Arpabet.remove (a : Arpabet) (key : String) : Option Polyphone × Arpabet :=
  (mapGet a.dictionary key, ⟨mapErase key a.dictionary⟩)

/-- Model of `Arpabet::keys`. -/
def Arpabet.keys (a : Arpabet) : List Word :=
  a.dictionary.map Prod.fst

/-- Model of `Arpabet::len`. -/
def Arpabet.len (a : Arpabet) : Nat :=
  a.dictionary.length

/-- Whitespace characters of the regex class `\s` (ASCII fragment of
Unicode White_Space, which is what the claims exercise). -/
def isWsChar (c : Char) : Bool :=
  c == ' ' || c == '\t' || c == '\n' || c == '\r' || c == '\x0B' || c == '\x0C'

/-- Characters of the regex class `[\w\-\(\)\.']` used for the WORD token
(`FILE_REGEX` in `arpabet_parser/src/lib.rs`), at ASCII fidelity. -/
def isWordChar (c : Char) : Bool :=
  c.isAlphanum || c == '_' || c == '-' || c == '(' || c == ')' || c == '.' || c == '\''

/-- Model of `COMMENT_REGEX.is_match` for `^;;;\s+`: the buffer starts with
three semicolons followed by at least one whitespace character. -/
def isCommentLine : List Char → Bool
  | ';' :: ';' :: ';' :: c :: _ => isWsChar c
  | _ => false

/-- Model of `FILE_REGEX.captures` for `^([\w\-\(\)\.']+)\s+([^\s].*)\s*$`
under the regex crate's leftmost, greedy, backtracking semantics:

* group 1 is the maximal non-empty run of word characters from the start
  (shortening it can never help, because the following `\s+` cannot match
  a word character);
* `\s+` then consumes the maximal whitespace run, which must be non-empty
  and must be followed by a remaining character (necessarily non-white);
* group 2 starts at that character; `.` cannot cross a newline, so the
  greedy `.*` extends to just before the first newline (or the end), and
  the final `\s*$` ($ anchors at the end of the haystack) succeeds exactly
  when everything from that newline on is whitespace — if a non-white
  character remains there, every backtracking split fails as well. -/
def fileRegexCaptures (buffer : List Char) : Option (List Char × List Char) :=
  let g1 := buffer.takeWhile isWordChar
  let rest1 := buffer.dropWhile isWordChar
  if g1.isEmpty then none
  else if (rest1.takeWhile isWsChar).isEmpty then none
  else
    match rest1.dropWhile isWsChar with
    | [] => none
    | c :: tail =>
      if (tail.dropWhile (fun ch => ch != '\n')).all isWsChar then
        some (g1, c :: tail.takeWhile (fun ch => ch != '\n'))
      else none

/-- Model of Rust's `str::split(" ")` on character lists: split at every
space, keeping empty segments; the result is never empty. -/
def splitOnChar (sep : Char) : List Char → List (List Char)
  | [] => [[]]
  | c :: rest =>
    match splitOnChar sep rest with
    | [] => [[]]
    | seg :: segs => if c = sep then [] :: seg :: segs else (c :: seg) :: segs

/-- Model of `BufRead::read_line` segmentation: the input text cut into
buffers, each retaining its trailing newline; a trailing newline does not
produce an extra empty buffer. -/
def splitLinesKeep : List Char → List (List Char)
  | [] => []
  | c :: rest =>
    match splitLinesKeep rest with
    | [] => [[c]]
    | seg :: segs => if c = '\n' then [c] :: seg :: segs else (c :: seg) :: segs

/-- Resolution of the uppercased phoneme tokens through `PHONEME_MAP`
(the `for token in phoneme_tokens` loop of `read_lines`): all tokens must
resolve, and their order is preserved. -/
def resolveTokens : List String → Option (List Phoneme)
  | [] => some []
  | t :: rest =>
    match mapGet PHONEME_MAP t with
    | none => none
    | some p => (resolveTokens rest).map (fun ps => p :: ps)

/-- Per-line processing of the `Some(caps)` branch of `read_lines`
(`arpabet_parser/src/lib.rs`): on a regex match, lowercase the word,
split group 2 on single spaces, uppercase each token, reject an empty
token list, and resolve every token.  `none` stands for every outcome
that `read_lines` turns into `InvalidFormat` for this buffer. -/
def parse_line (buffer : List Char) : Option (Word × Polyphone) :=
  match fileRegexCaptures buffer with
  | none => none
  | some (g1, g2) =>
    let word : Word := String.mk (g1.map Char.toLower)
    let phoneme_tokens : List String :=
      (splitOnChar ' ' g2).map (fun t => String.mk (t.map Char.toUpper))
    if phoneme_tokens.isEmpty then none
    else
      match resolveTokens phoneme_tokens with
      | none => none
      | some phonemes => some (word, phonemes)

/-- Model of `read_lines` (`arpabet_parser/src/lib.rs`): process the line
buffers in order, starting with `line_count = 1`, skipping comment lines
(still counted), failing with `InvalidFormat` carrying the current line
number and the raw buffer text at the first bad line, and otherwise
inserting the parsed entry (later duplicates overwrite). -/
def read_lines : List (List Char) → Nat → List (Word × Polyphone) →
    Except ArpabetError (List (Word × Polyphone))
  | [], _, map => .ok map
  | buffer :: rest, line_count, map =>
    if isCommentLine buffer then
      read_lines rest (line_count + 1) map
    else
      match parse_line buffer with
      | none => .error (.InvalidFormat line_count (String.mk buffer))
      | some (word, phonemes) =>
        read_lines rest (line_count + 1) (mapInsert word phonemes map)

/-- Model of `load_from_str` (`arpabet_parser/src/lib.rs`): run
`read_lines` on the fresh map, propagate its error, reject an empty
result with `EmptyFile`, and otherwise build the store via
`Arpabet::from_map`. -/
def load_from_str (text : String) : Except ArpabetError Arpabet :=
  match read_lines (splitLinesKeep text.data) 1 [] with
  | .error e => .error e
  | .ok map => if map.isEmpty then .error .EmptyFile else .ok (Arpabet.from_map map)

end Arpa

deriving instance DecidableEq for Except

namespace Arpa

/-- Lookup after insert: the inserted key now maps to the new value and
every other key is untouched. -/
theorem mapGet_mapInsert {β : Type} (k : String) (v : β) (m : List (String × β)) (w : String) :
    mapGet (mapInsert k v m) w = if k = w then some v else mapGet m w := by
  induction m with
  | nil => simp [mapInsert, mapGet]
  | cons kv rest ih =>
    by_cases h : kv.1 = k
    · by_cases hw : k = w <;> simp [mapInsert, mapGet, h, hw]
    · by_cases hw : kv.1 = w <;> by_cases hk : k = w <;>
        simp_all [mapInsert, mapGet, h, hw, hk]

/-- A key is absent exactly when lookup fails. -/
theorem mapGet_eq_none_iff {β : Type} (m : List (String × β)) (w : String) :
    mapGet m w = none ↔ w ∉ m.map Prod.fst := by
  induction m with
  | nil => simp [mapGet]
  | cons kv rest ih =>
    by_cases h : kv.1 = w
    · simp [mapGet, h]
    · simp only [mapGet, h, if_neg, ite_false, List.map_cons, List.mem_cons, not_or]
      rw [ih]
      exact ⟨fun hnm => ⟨fun he => h he.symm, hnm⟩, fun hnm => hnm.2⟩

/-- Erasing an absent key is the identity. -/
theorem mapErase_eq_self {β : Type} (m : List (String × β)) (w : String)
    (h : mapGet m w = none) : mapErase w m = m := by
  induction m with
  | nil => rfl
  | cons kv rest ih =>
    simp only [mapGet] at h
    by_cases hk : kv.1 = w
    · simp [hk] at h
    · simp only [mapErase, hk, if_neg, ite_false]
      rw [ih (by simpa [hk] using h)]

/-- With distinct keys, a key erased once is gone. -/
theorem mapGet_mapErase {β : Type} (m : List (String × β)) (w : String)
    (hnd : (m.map Prod.fst).Nodup) : mapGet (mapErase w m) w = none := by
  induction m with
  | nil => rfl
  | cons kv rest ih =>
    simp only [List.map_cons, List.nodup_cons] at hnd
    by_cases hk : kv.1 = w
    · simp only [mapErase, hk, if_pos, ite_true]
      exact (mapGet_eq_none_iff rest w).2 (hk ▸ hnd.1)
    · simp only [mapErase, hk, if_neg, ite_false, mapGet]
      simpa [hk] using ih hnd.2

/-- Lookup through a left fold of insertions: when the inserted
association list has distinct keys, its bindings win and the accumulator
is consulted only for keys it does not bind. -/
theorem mapGet_foldl_insert {β : Type} (l : List (String × β))
    (hnd : (l.map Prod.fst).Nodup) (m : List (String × β)) (w : String) :
    mapGet (l.foldl (fun acc kv => mapInsert kv.1 kv.2 acc) m) w =
      if (mapGet l w).isSome then mapGet l w else mapGet m w := by
  induction l generalizing m with
  | nil => simp [mapGet]
  | cons kv rest ih =>
    simp only [List.map_cons, List.nodup_cons] at hnd
    rw [List.foldl_cons, ih hnd.2]
    by_cases hk : kv.1 = w
    · have hrest : mapGet rest w = none := (mapGet_eq_none_iff rest w).2 (hk ▸ hnd.1)
      simp [mapGet, hk, hrest, mapGet_mapInsert]
    · by_cases hr : (mapGet rest w).isSome <;>
        simp [mapGet, hk, hr, mapGet_mapInsert]

/-- A run of comment lines is skipped and leaves the working map as is. -/
theorem read_lines_all_comments (ls : List (List Char)) (n : Nat)
    (m : List (Word × Polyphone)) (h : ∀ l ∈ ls, isCommentLine l = true) :
    read_lines ls n m = .ok m := by
  induction ls generalizing n with
  | nil => rfl
  | cons a rest ih =>
    have ha := h a (List.mem_cons_self a rest)
    simp only [read_lines, ha, if_pos]
    exact ih (n + 1) (fun l hl => h l (List.mem_cons_of_mem a hl))

/-- When `read_lines` succeeds, every processed buffer was either a
comment line or a line that parses. -/
theorem read_lines_ok_forall (ls : List (List Char)) (n : Nat)
    (m m' : List (Word × Polyphone)) (h : read_lines ls n m = .ok m') :
    ∀ l ∈ ls, isCommentLine l = true ∨ (parse_line l).isSome := by
  induction ls generalizing n m with
  | nil => simp
  | cons a rest ih =>
    intro l hl
    by_cases hc : isCommentLine a
    · rcases List.mem_cons.1 hl with rfl | hmem
      · exact Or.inl hc
      · exact ih (n + 1) m (by simpa [read_lines, hc] using h) l hmem
    · cases hp : parse_line a with
      | none => simp [read_lines, hc, hp] at h
      | some wp =>
        obtain ⟨w0, p0⟩ := wp
        rcases List.mem_cons.1 hl with rfl | hmem
        · exact Or.inr (by simp [hp])
        · exact ih (n + 1) (mapInsert w0 p0 m) (by simpa [read_lines, hc, hp] using h) l hmem

/-- Every error produced by `read_lines` is an `InvalidFormat`. -/
theorem read_lines_error_shape (ls : List (List Char)) (n : Nat)
    (m : List (Word × Polyphone)) (e : ArpabetError)
    (h : read_lines ls n m = .error e) : ∃ k t, e = .InvalidFormat k t := by
  induction ls generalizing n m with
  | nil => simp [read_lines] at h
  | cons a rest ih =>
    by_cases hc : isCommentLine a
    · exact ih (n + 1) m (by simpa [read_lines, hc] using h)
    · cases hp : parse_line a with
      | none =>
        simp only [read_lines, hc, if_neg, ite_false, hp] at h
        exact ⟨n, String.mk a, by injection h with h; exact h.symm⟩
      | some wp =>
        obtain ⟨w0, p0⟩ := wp
        exact ih (n + 1) (mapInsert w0 p0 m) (by simpa [read_lines, hc, hp] using h)

/-- The parser is fail-fast: with a prefix of processable lines and then a
bad line, `read_lines` reports `InvalidFormat` at the bad line, whose
1-based position is the count of every physical line before it (comments
included) plus the starting counter. -/
theorem read_lines_error_at (pre : List (List Char)) (bad : List Char)
    (post : List (List Char)) (n : Nat) (m : List (Word × Polyphone))
    (hpre : ∀ l ∈ pre, isCommentLine l = true ∨ (parse_line l).isSome)
    (hbadc : isCommentLine bad = false) (hbadp : parse_line bad = none) :
    read_lines (pre ++ bad :: post) n m =
      .error (.InvalidFormat (n + pre.length) (String.mk bad)) := by
  induction pre generalizing n m with
  | nil => simp [read_lines, hbadc, hbadp]
  | cons a rest ih =>
    have harith : n + 1 + rest.length = n + (a :: rest).length := by
      simp [List.length_cons]; omega
    by_cases hc : isCommentLine a
    · have hstep : read_lines (a :: (rest ++ bad :: post)) n m =
          read_lines (rest ++ bad :: post) (n + 1) m := by
        simp [read_lines, hc]
      rw [List.cons_append, hstep,
        ih (n + 1) m (fun l hl => hpre l (List.mem_cons_of_mem a hl)), harith]
    · have hp : (parse_line a).isSome := by
        rcases hpre a (List.mem_cons_self a rest) with h1 | h2
        · rw [h1] at hc; exact absurd rfl hc
        · exact h2
      obtain ⟨⟨w0, p0⟩, hsome⟩ := Option.isSome_iff_exists.1 hp
      have hstep : read_lines (a :: (rest ++ bad :: post)) n m =
          read_lines (rest ++ bad :: post) (n + 1) (mapInsert w0 p0 m) := by
        simp [read_lines, hc, hsome]
      rw [List.cons_append, hstep,
        ih (n + 1) (mapInsert w0 p0 m) (fun l hl => hpre l (List.mem_cons_of_mem a hl)), harith]

/-- The head of the list left by `dropWhile` fails the predicate. -/
theorem dropWhile_head_false {α : Type} (p : α → Bool) (l : List α) (x : α)
    (xs : List α) (h : l.dropWhile p = x :: xs) : p x = false := by
  induction l with
  | nil => simp [List.dropWhile] at h
  | cons a rest ih =>
    by_cases hp : p a
    · exact ih (by simpa [List.dropWhile, hp] using h)
    · simp only [List.dropWhile, hp, if_neg, ite_false] at h
      injection h with h1 _
      rw [← h1]
      simpa using hp

/-- Splitting never yields an empty list of segments (Rust's `split`
always yields at least one, possibly empty, segment). -/
theorem splitOnChar_ne_nil (sep : Char) (l : List Char) : splitOnChar sep l ≠ [] := by
  cases l with
  | nil => simp [splitOnChar]
  | cons c rest =>
    simp only [splitOnChar]
    cases h : splitOnChar sep rest with
    | nil => simp
    | cons seg segs => by_cases hc : c = sep <;> simp [hc]

/-- C1: round-trip through the symbol table — for every one of the 31
consonants `c`, parsing `c.to_str` yields `Phoneme.Consonant c`, and for
every vowel value (19 bases × 4 stresses, 76 in all), parsing its string
form yields exactly that vowel phoneme, so `Phoneme::try_from` inverts
`to_str` on all 107 phonemes. -/
theorem phoneme_try_from_roundtrip :
    (∀ c : Consonant, Phoneme.try_from (Consonant.to_str c) =
        Except.ok (Phoneme.Consonant c)) ∧
    (∀ v : Vowel, Phoneme.try_from (Vowel.to_str v) =
        Except.ok (Phoneme.Vowel v)) := by
  constructor
  · intro c; cases c <;> rfl
  · intro v; cases v <;> rename_i s <;> cases s <;> rfl

/-- C2 counterexample: a whitespace-only (non-comment) line is rejected
with `InvalidFormat`, not `EmptyFile`, contradicting the claim that
whitespace-only input fails with `EmptyFile`. -/
theorem whitespace_line_not_empty_file :
    load_from_str "\n" = Except.error (ArpabetError.InvalidFormat 1 "\n") ∧
    load_from_str "\n" ≠ Except.error ArpabetError.EmptyFile := by
  exact ⟨by decide, by decide⟩

/-- C2 (amended): empty input, or input consisting only of comment lines,
fails with `EmptyFile` (whitespace-only non-comment lines instead fail
with `InvalidFormat`, see the counterexample); and `EmptyFile` is
returned exactly when line processing completed with zero entries, in
which case no store is produced. -/
theorem empty_file_exactly_on_zero_entries :
    load_from_str "" = Except.error ArpabetError.EmptyFile ∧
    load_from_str ";;; comment only\n" = Except.error ArpabetError.EmptyFile ∧
    (∀ text : String, (∀ l ∈ splitLinesKeep text.data, isCommentLine l = true) →
        load_from_str text = Except.error ArpabetError.EmptyFile) ∧
    (∀ text : String, load_from_str text = Except.error ArpabetError.EmptyFile ↔
        read_lines (splitLinesKeep text.data) 1 [] = Except.ok []) := by
  refine ⟨by decide, by decide, ?_, ?_⟩
  · intro text h
    unfold load_from_str
    rw [read_lines_all_comments _ 1 [] h]
    rfl
  · intro text
    unfold load_from_str
    cases hr : read_lines (splitLinesKeep text.data) 1 [] with
    | error e =>
      obtain ⟨k, t, rfl⟩ := read_lines_error_shape _ _ _ _ hr
      simp
    | ok m =>
      cases m with
      | nil => simp
      | cons kv rest => simp

/-- Witness for the amended C2 theorem at a concrete comment-only input. -/
theorem empty_file_exactly_on_zero_entries_witness :
    load_from_str ";;; a\n;;; b" = Except.error ArpabetError.EmptyFile :=
  empty_file_exactly_on_zero_entries.2.2.1 ";;; a\n;;; b" (by decide)

/-- C3: the later operand always wins — `combine` resolves every word to
the second store's value when present and the first store's otherwise
(both inputs untouched, the operations being pure functions of them);
`merge_from` leaves `self` exactly equal to `combine`'s result; and a
later line for the same word silently replaces the earlier one during
parsing. -/
theorem later_entry_wins :
    (∀ a b : Arpabet, (b.dictionary.map Prod.fst).Nodup → ∀ w : String,
        (a.combine b).get_polyphone w =
          if (b.get_polyphone w).isSome then b.get_polyphone w
          else a.get_polyphone w) ∧
    (∀ a b : Arpabet, a.merge_from b = a.combine b) ∧
    load_from_str "FOO  F UW1\nFOO  B UW1" =
      Except.ok (Arpabet.from_map
        [("foo", [Phoneme.Consonant Consonant.B,
                  Phoneme.Vowel (Vowel.UW VowelStress.PrimaryStress)])]) := by
  refine ⟨?_, fun a b => rfl, by decide⟩
  intro a b hnd w
  simpa [Arpabet.combine, Arpabet.get_polyphone] using
    mapGet_foldl_insert b.dictionary hnd a.dictionary w

/-- Witness for C3 at two concrete one-entry stores sharing a key. -/
theorem later_entry_wins_witness :
    ((Arpabet.from_map [("foo", [Phoneme.Consonant Consonant.F])]).combine
        (Arpabet.from_map [("foo", [Phoneme.Consonant Consonant.B])])).get_polyphone
      "foo" = some [Phoneme.Consonant Consonant.B] :=
  (later_entry_wins.1 (Arpabet.from_map [("foo", [Phoneme.Consonant Consonant.F])])
      (Arpabet.from_map [("foo", [Phoneme.Consonant Consonant.B])])
      (by decide) "foo").trans (by decide)

/-- C4: the three-line fixture fails with `InvalidFormat` at line 3 with
the raw text of the bad line; and in general the reported line number is
1-based and counts every physical line before the offending one,
including skipped comment lines. -/
theorem invalid_format_line_numbering :
    load_from_str "DOCTOR  D AA1 K T ER0\nMARIO  M AA1 R IY0 OW0\nWAT    " =
      Except.error (ArpabetError.InvalidFormat 3 "WAT    ") ∧
    (∀ (pre : List (List Char)) (bad : List Char) (post : List (List Char))
        (m : List (Word × Polyphone)),
        (∀ l ∈ pre, isCommentLine l = true ∨ (parse_line l).isSome) →
        isCommentLine bad = false → parse_line bad = none →
        read_lines (pre ++ bad :: post) 1 m =
          Except.error (ArpabetError.InvalidFormat (1 + pre.length) (String.mk bad))) :=
  ⟨by decide, fun pre bad post m hpre hbadc hbadp =>
    read_lines_error_at pre bad post 1 m hpre hbadc hbadp⟩

/-- Witness for C4's general part: after a comment line and a valid line,
a bad third line is reported at line number 3. -/
theorem invalid_format_line_numbering_witness :
    read_lines ([";;; c\n".data, "A  B\n".data] ++ "?\n".data :: []) 1 [] =
      Except.error (ArpabetError.InvalidFormat
        (1 + [";;; c\n".data, "A  B\n".data].length) (String.mk "?\n".data)) :=
  invalid_format_line_numbering.2 [";;; c\n".data, "A  B\n".data] "?\n".data [] []
    (by decide) (by decide) (by decide)

/-- C5: parsing is fail-fast and atomic — an erroring `load_from_str`
never also produces a store, and a successful one means every physical
line was a comment or a fully parsed entry, so entries before a
malformed line are never observable. -/
theorem load_fail_fast_atomic :
    (∀ (text : String) (e : ArpabetError) (a : Arpabet),
        load_from_str text = Except.error e → ¬ load_from_str text = Except.ok a) ∧
    (∀ (text : String) (a : Arpabet), load_from_str text = Except.ok a →
        ∀ l ∈ splitLinesKeep text.data,
          isCommentLine l = true ∨ (parse_line l).isSome) := by
  constructor
  · intro text e a he hok
    rw [he] at hok
    exact Except.noConfusion hok
  · intro text a hok
    unfold load_from_str at hok
    cases hr : read_lines (splitLinesKeep text.data) 1 [] with
    | error e => rw [hr] at hok; simp at hok
    | ok m => exact read_lines_ok_forall _ _ _ _ hr

/-- Witness for C5 at a concrete erroring input. -/
theorem load_fail_fast_atomic_witness :
    ¬ load_from_str "\n" = Except.ok Arpabet.new :=
  load_fail_fast_atomic.1 "\n" (ArpabetError.InvalidFormat 1 "\n") Arpabet.new
    (by decide)

/-- C6: case normalization at parse time — `"Test  t eh1 s t"` yields
exactly the key `"test"` mapped to `[T, EH1, S, T]`, and variants of the
same line differing only in case yield the same store. -/
theorem parse_case_normalization :
    load_from_str "Test  t eh1 s t" =
      Except.ok (Arpabet.from_map
        [("test", [Phoneme.Consonant Consonant.T,
                   Phoneme.Vowel (Vowel.EH VowelStress.PrimaryStress),
                   Phoneme.Consonant Consonant.S,
                   Phoneme.Consonant Consonant.T])]) ∧
    load_from_str "TEST  T EH1 S T" = load_from_str "Test  t eh1 s t" ∧
    load_from_str "tesT  T Eh1 s T" = load_from_str "Test  t eh1 s t" := by
  exact ⟨by decide, by decide, by decide⟩

/-- C7: the symbol table has exactly 107 entries — one per consonant (31)
and one per vowel/stress combination (76), each keyed by its canonical
uppercase string form — and lookup is exact and case-sensitive.  The
table is a fixed constant of the model, mirroring the immutable static
`phf` map. -/
theorem phoneme_map_invariants :
    PHONEME_MAP.length = 107 ∧
    ALL_CONSONANTS.length = 31 ∧
    ALL_VOWELS.length = 76 ∧
    (PHONEME_MAP.map Prod.fst).Nodup ∧
    PHONEME_MAP =
      ALL_CONSONANTS.map (fun c => (Consonant.to_str c, Phoneme.Consonant c)) ++
      ALL_VOWELS.map (fun v => (Vowel.to_str v, Phoneme.Vowel v)) ∧
    (∀ c : Consonant, (Consonant.to_str c, Phoneme.Consonant c) ∈ PHONEME_MAP) ∧
    (∀ v : Vowel, (Vowel.to_str v, Phoneme.Vowel v) ∈ PHONEME_MAP) ∧
    mapGet PHONEME_MAP "AH0" = some (Phoneme.Vowel (Vowel.AH VowelStress.NoStress)) ∧
    mapGet PHONEME_MAP "ah0" = none ∧
    mapGet PHONEME_MAP "Ah0" = none := by
  refine ⟨by decide, by decide, by decide, by decide, by decide, ?_, ?_,
    by decide, by decide, by decide⟩
  · intro c; cases c <;> decide
  · intro v; cases v <;> rename_i s <;> cases s <;> decide

/-- C8: `remove` is idempotent — removing an absent key returns absent
and leaves the store (and its size) unchanged, and removing the same key
twice produces the same post-state as removing it once, with the second
removal returning absent. -/
theorem remove_idempotent :
    ∀ a : Arpabet, (a.dictionary.map Prod.fst).Nodup → ∀ w : String,
      (a.get_polyphone w = none → a.remove w = (none, a)) ∧
      (a.get_polyphone w = none → ((a.remove w).2).len = a.len) ∧
      ((a.remove w).2).remove w = (none, (a.remove w).2) := by
  intro a hnd w
  refine ⟨?_, ?_, ?_⟩
  · intro h
    have h' : mapGet a.dictionary w = none := h
    simp only [Arpabet.remove, h', mapErase_eq_self a.dictionary w h']
  · intro h
    have h' : mapGet a.dictionary w = none := h
    simp only [Arpabet.remove, Arpabet.len, mapErase_eq_self a.dictionary w h']
  · have h1 : mapGet (mapErase w a.dictionary) w = none :=
      mapGet_mapErase a.dictionary w hnd
    simp only [Arpabet.remove, h1, mapErase_eq_self _ _ h1]

/-- Witness for C8 at a concrete one-entry store and an absent key. -/
theorem remove_idempotent_witness :
    (Arpabet.from_map [("foo", [Phoneme.Consonant Consonant.F])]).remove "bar" =
      (none, Arpabet.from_map [("foo", [Phoneme.Consonant Consonant.F])]) :=
  (remove_idempotent (Arpabet.from_map [("foo", [Phoneme.Consonant Consonant.F])])
    (by decide) "bar").1 (by decide)

/-- C9: for every vowel value, the 76-arm `Vowel::to_str` agrees with the
compositional definition — the stressless base string concatenated with
the suffix determined solely by the stress. -/
theorem vowel_to_str_refines_compositional :
    ∀ v : Vowel, Vowel.to_str v = Vowel.to_str_spec v := by
  intro v
  cases v <;> rename_i s <;> cases s <;> rfl

/-- C10: the parser's empty-token-list rejection is unreachable — whenever
the line regex matches, capture group 2 starts with a non-whitespace
character and splitting it on spaces yields at least one token, so the
token list tested by `phoneme_tokens.is_empty()` is never empty. -/
theorem phoneme_tokens_never_empty :
    ∀ (buffer g1 g2 : List Char), fileRegexCaptures buffer = some (g1, g2) →
      (∃ c rest, g2 = c :: rest ∧ isWsChar c = false) ∧
      splitOnChar ' ' g2 ≠ [] ∧
      ((splitOnChar ' ' g2).map
        (fun t => String.mk (t.map Char.toUpper))).isEmpty = false := by
  intro buffer g1 g2 h
  simp only [fileRegexCaptures] at h
  by_cases h1 : (buffer.takeWhile isWordChar).isEmpty
  · simp [h1] at h
  · by_cases h2 : ((buffer.dropWhile isWordChar).takeWhile isWsChar).isEmpty
    · simp [h1, h2] at h
    · cases hd : (buffer.dropWhile isWordChar).dropWhile isWsChar with
      | nil => simp [h1, h2, hd] at h
      | cons c tail =>
        simp only [h1, h2, hd, if_neg, ite_false, Bool.false_eq_true] at h
        by_cases h3 : (tail.dropWhile (fun ch => ch != '\n')).all isWsChar
        · simp only [h3, if_pos, ite_true, Option.some.injEq, Prod.mk.injEq] at h
          obtain ⟨hg1, hg2⟩ := h
          have hc : isWsChar c = false := dropWhile_head_false isWsChar _ c tail hd
          refine ⟨⟨c, tail.takeWhile (fun ch => ch != '\n'), hg2.symm, hc⟩,
            splitOnChar_ne_nil ' ' g2, ?_⟩
          cases hsp : splitOnChar ' ' g2 with
          | nil => exact absurd hsp (splitOnChar_ne_nil ' ' g2)
          | cons s ss => simp
        · simp [h3] at h

/-- Witness for C10 at a concrete matching buffer. -/
theorem phoneme_tokens_never_empty_witness :
    (∃ c rest, ['B'] = c :: rest ∧ isWsChar c = false) ∧
    splitOnChar ' ' ['B'] ≠ [] ∧
    ((splitOnChar ' ' ['B']).map
      (fun t => String.mk (t.map Char.toUpper))).isEmpty = false :=
  phoneme_tokens_never_empty "A  B\n".data "A".data ['B'] (by decide)

end Arpa
